import Mathlib

/-
Verification of the VA-coupling calculator model
(`src/va_coupling_calculator.py`, class `VACouplingApp`).

The Python source computes with double-precision floats; the shallow
embedding below idealises the arithmetic over the reals, translating each
method of `VACouplingApp` line by line (numeric literals such as `0.0003`
denote the exact rationals the source text writes).  Division in the
embedding is Mathlib's total real division (`x / 0 = 0`): the source has
no guard on any division, so every function below is total, exactly as in
the source.
-/

namespace VACoupling

/-- Embedding of `VACouplingApp.calculate_sv` (lines 11-16 of the source):
stroke volume from heart rate, systemic vascular resistance and ejection
fraction. -/
noncomputable def calculate_sv (hr svr ef : ℝ) : ℝ :=
  let base_edv : ℝ := 150
  let filling_effect : ℝ := Real.exp (-0.25 * max 0 ((hr - 60) / 60))
  let afterload_effect : ℝ := Real.exp (-0.0003 * (svr - 800))
  let edv := base_edv * filling_effect * afterload_effect
  edv * ef

/-- Embedding of `VACouplingApp.calculate_elastances` (lines 18-25):
returns the tuple `(ea, ees, sv, map_pressure)`.  The division producing
`ea` is unguarded in the source; here it is total real division. -/
noncomputable def calculate_elastances (hr svr ef : ℝ) : ℝ × ℝ × ℝ × ℝ :=
  let sv := calculate_sv hr svr ef
  let co := sv * hr / 1000
  let map_pressure := co * svr / 80
  let ea := map_pressure * 0.9 / sv
  let base_ees := 2.0 * ef / 0.55
  let ees := base_ees * Real.exp (-0.0002 * (svr - 800))
  (ea, ees, sv, map_pressure)

/-- The unclamped wedge-pressure expression of
`VACouplingApp.calculate_optimal_wedge_pressure` (lines 36-59; the local
`diastolic_time` of line 37 is computed but never used by the source and
is omitted). -/
noncomputable def optimal_wedge_raw (hr svr ef : ℝ) : ℝ :=
  let ef_factor := 1 - ef
  let svr_factor := svr / 800 - 1
  let hr_factor := 1 - Real.exp (-0.1 * (hr - 75))
  12 * (1 - 0.4 * ef_factor) * (1 + 0.3 * svr_factor) * (1 + 0.2 * hr_factor)

/-- Embedding of `VACouplingApp.calculate_optimal_wedge_pressure`
(lines 27-63): the raw value clamped by `max(5, min(25, .))`. -/
noncomputable def calculate_optimal_wedge_pressure (hr svr ef : ℝ) : ℝ :=
  max 5 (min 25 (optimal_wedge_raw hr svr ef))

/-- Embedding of the inner closure `congestion_penalty` of
`VACouplingApp.calculate_venous_congestion` (lines 83-107), with the two
captured values (`optimal_wedge`, `overall_sensitivity`) passed
explicitly. -/
noncomputable def congestion_penalty
    (optimal_wedge overall_sensitivity wedge : ℝ) : ℝ :=
  let deviation := wedge - optimal_wedge
  let penalty :=
    if deviation < 0 then deviation ^ 2 * 0.3 else Real.exp deviation - 1
  penalty * overall_sensitivity

/-- Embedding of `VACouplingApp.calculate_venous_congestion` (lines 65-109):
returns the penalty closure together with the optimal wedge pressure. -/
noncomputable def calculate_venous_congestion (hr svr ef : ℝ) : (ℝ → ℝ) × ℝ :=
  let optimal_wedge := calculate_optimal_wedge_pressure hr svr ef
  let ef_sensitivity := 1.5 - ef
  let svr_sensitivity := svr / 800
  let overall_sensitivity := ef_sensitivity * svr_sensitivity
  (congestion_penalty optimal_wedge overall_sensitivity, optimal_wedge)

/-- The `coupling_ratio = ea / ees` computed on line 115 of the source. -/
noncomputable def coupling_ratio (hr svr ef : ℝ) : ℝ :=
  (calculate_elastances hr svr ef).1 / (calculate_elastances hr svr ef).2.1

/-- The `mechanical_efficiency` Gaussian of line 124 of the source. -/
noncomputable def mechanical_efficiency (hr svr ef : ℝ) : ℝ :=
  Real.exp (-((coupling_ratio hr svr ef - 0.8) / 0.4) ^ 2)

/-- The `diastolic_efficiency` Gaussian of line 127 of the source. -/
noncomputable def diastolic_efficiency (hr : ℝ) : ℝ :=
  Real.exp (-0.5 * ((hr - 75) / 30) ^ 2)

/-- Embedding of `VACouplingApp.calculate_efficiency` (lines 111-132):
returns `(efficiency, coupling_ratio, sv, co, optimal_wedge)`.  The
congestion penalty is evaluated, as in the source, at the just-computed
optimal wedge pressure itself. -/
noncomputable def calculate_efficiency (hr svr ef : ℝ) : ℝ × ℝ × ℝ × ℝ × ℝ :=
  let sv := (calculate_elastances hr svr ef).2.2.1
  let congestion_func := (calculate_venous_congestion hr svr ef).1
  let optimal_wedge := (calculate_venous_congestion hr svr ef).2
  let congestion_pen := congestion_func optimal_wedge
  let efficiency :=
    mechanical_efficiency hr svr ef * diastolic_efficiency hr *
      (1 - congestion_pen) * 100
  (efficiency, coupling_ratio hr svr ef, sv, sv * hr / 1000, optimal_wedge)

/-- One row of the data table built by `VACouplingApp.generate_data`
(lines 140-147 of the source). -/
structure DataRow where
  hr : ℝ
  efficiency : ℝ
  coupling_ratio : ℝ
  sv : ℝ
  co : ℝ
  optimal_wedge : ℝ

/-- Embedding of `np.linspace(a, b, n)` as used on line 135: `n` evenly
spaced points from `a` to `b` inclusive, step `(b - a) / (n - 1)`. -/
noncomputable def linspace (a b : ℝ) (n : ℕ) : List ℝ :=
  (List.range n).map fun i : ℕ => a + (b - a) * (i : ℝ) / ((n : ℝ) - 1)

/-- Embedding of `VACouplingApp.generate_data` (lines 134-149): one row
per heart-rate sample of `np.linspace(40, 120, 81)`, in grid order. -/
noncomputable def generate_data (svr ef : ℝ) : List DataRow :=
  (linspace 40 120 81).map fun hr =>
    let r := calculate_efficiency hr svr ef
    { hr := hr, efficiency := r.1, coupling_ratio := r.2.1, sv := r.2.2.1,
      co := r.2.2.2.1, optimal_wedge := r.2.2.2.2 }

/-- Embedding of `pandas.Series.idxmax` as used on line 192 of the source
(`data['efficiency'].idxmax()`): the index of the first occurrence of the
maximum value of the list, i.e. the first index holding a value that every
element of the list is `≤`. -/
noncomputable def idxmax (l : List ℝ) : ℕ :=
  l.findIdx fun x => decide (∀ y ∈ l, y ≤ x)

/-- Embedding of `optimal_row = data.loc[data['efficiency'].idxmax()]`
(line 192 of the source); `d` is the out-of-range default, never used on
the actual 81-row table. -/
noncomputable def optimal_row (svr ef : ℝ) (d : DataRow) : DataRow :=
  (generate_data svr ef).getD (idxmax ((generate_data svr ef).map DataRow.efficiency)) d

/-- In the pipeline the congestion penalty closure is applied to the very
wedge pressure it was built from, so its `deviation` is `0` and the
penalty is `(exp 0 - 1) * sensitivity = 0`. -/
lemma congestion_at_optimal (hr svr ef : ℝ) :
    (calculate_venous_congestion hr svr ef).1
      ((calculate_venous_congestion hr svr ef).2) = 0 := by
  simp [calculate_venous_congestion, congestion_penalty]

/-- The efficiency component returned by `calculate_efficiency` reduces to
the product of the two Gaussian sub-scores times 100. -/
lemma efficiency_fst (hr svr ef : ℝ) :
    (calculate_efficiency hr svr ef).1 =
      mechanical_efficiency hr svr ef * diastolic_efficiency hr * 100 := by
  have h := congestion_at_optimal hr svr ef
  simp [calculate_efficiency, h]

/-- C7: at `hr = 60` the filling-effect multiplier is `exp 0 = 1` and at
`svr = 800` the afterload-effect multiplier is `exp 0 = 1`, so the stroke
volume is exactly `150 * ef`. -/
theorem calculate_sv_at_60_800 (ef : ℝ) : calculate_sv 60 800 ef = 150 * ef := by
  simp [calculate_sv]

/-- C1: on the whole valid domain the congestion penalty is evaluated at
the just-computed optimal wedge pressure, so the penalty term is `0` and
the returned efficiency is exactly
`mechanical_efficiency * diastolic_efficiency * 100`. -/
theorem efficiency_penalty_structurally_zero (hr svr ef : ℝ)
    (h1 : 0 < hr) (h2 : 0 < svr) (h3 : 0 < ef) (h4 : ef ≤ 1) :
    (calculate_venous_congestion hr svr ef).1
        ((calculate_venous_congestion hr svr ef).2) = 0 ∧
      (calculate_efficiency hr svr ef).1 =
        mechanical_efficiency hr svr ef * diastolic_efficiency hr * 100 :=
  ⟨congestion_at_optimal hr svr ef, efficiency_fst hr svr ef⟩

/-- Witness for C1 at the concrete input `hr = 60`, `svr = 800`, `ef = 1`. -/
theorem efficiency_penalty_structurally_zero_witness :
    (calculate_venous_congestion 60 800 1).1
        ((calculate_venous_congestion 60 800 1).2) = 0 ∧
      (calculate_efficiency 60 800 1).1 =
        mechanical_efficiency 60 800 1 * diastolic_efficiency 60 * 100 :=
  efficiency_penalty_structurally_zero 60 800 1 (by norm_num) (by norm_num)
    (by norm_num) (by norm_num)

/-- C2: with the congestion term at its structural value 0, the returned
efficiency is the product of two positive values that are at most 1,
times 100, hence lies in the half-open interval (0, 100]. -/
theorem efficiency_mem_Ioc (hr svr ef : ℝ)
    (h1 : 0 < hr) (h2 : 0 < svr) (h3 : 0 < ef) (h4 : ef ≤ 1) :
    0 < (calculate_efficiency hr svr ef).1 ∧
      (calculate_efficiency hr svr ef).1 ≤ 100 := by
  rw [efficiency_fst]
  have hm1 : mechanical_efficiency hr svr ef ≤ 1 := by
    unfold mechanical_efficiency
    exact Real.exp_le_one_iff.mpr (neg_nonpos.mpr (sq_nonneg _))
  have hd1 : diastolic_efficiency hr ≤ 1 := by
    unfold diastolic_efficiency
    refine Real.exp_le_one_iff.mpr ?_
    nlinarith [sq_nonneg ((hr - 75) / 30)]
  have hm0 : 0 < mechanical_efficiency hr svr ef := Real.exp_pos _
  have hd0 : 0 < diastolic_efficiency hr := Real.exp_pos _
  constructor
  · positivity
  · nlinarith

/-- Witness for C2 at the concrete input `hr = 60`, `svr = 800`, `ef = 1`. -/
theorem efficiency_mem_Ioc_witness :
    0 < (calculate_efficiency 60 800 1).1 ∧
      (calculate_efficiency 60 800 1).1 ≤ 100 :=
  efficiency_mem_Ioc 60 800 1 (by norm_num) (by norm_num) (by norm_num)
    (by norm_num)

/-- C3 counterexample: at `hr = 60`, `svr = 800`, `ef = 0` the stroke
volume is `≤ 0`, yet `calculate_elastances` does not fail: the division by
the stroke volume is unguarded and the call returns the definite tuple
`(0, 0, 0, 0)` (under the embedding's total-division convention) instead
of raising a domain error. -/
theorem elastances_return_at_zero_sv :
    calculate_sv 60 800 0 ≤ 0 ∧ calculate_elastances 60 800 0 = (0, 0, 0, 0) := by
  constructor
  · simp [calculate_sv]
  · simp [calculate_elastances, calculate_sv]

/-- C3 amended: the division producing `Ea` is not guarded;
`calculate_elastances` is total and, for every input with `ef = 0` (where
the stroke volume is exactly 0), it still returns a value, namely the
tuple `(0, 0, 0, 0)`. -/
theorem elastances_unguarded (hr svr : ℝ) :
    calculate_sv hr svr 0 = 0 ∧ calculate_elastances hr svr 0 = (0, 0, 0, 0) := by
  constructor
  · simp [calculate_sv]
  · simp [calculate_elastances, calculate_sv]

/-- C4: for positive `hr`, `svr` and `ef ∈ (0, 1]` the stroke volume is
strictly positive, so neither the division by `sv` in
`calculate_elastances` nor the division by `ees` in the coupling ratio of
`calculate_efficiency` divides by zero. -/
theorem sv_pos_divisors_nonzero (hr svr ef : ℝ)
    (h1 : 0 < hr) (h2 : 0 < svr) (h3 : 0 < ef) (h4 : ef ≤ 1) :
    0 < calculate_sv hr svr ef ∧ calculate_sv hr svr ef ≠ 0 ∧
      (calculate_elastances hr svr ef).2.1 ≠ 0 := by
  have hsv : 0 < calculate_sv hr svr ef := by
    simp only [calculate_sv]
    have he1 := Real.exp_pos (-0.25 * max 0 ((hr - 60) / 60))
    have he2 := Real.exp_pos (-0.0003 * (svr - 800))
    exact mul_pos (mul_pos (mul_pos (by norm_num) he1) he2) h3
  have hees : 0 < (calculate_elastances hr svr ef).2.1 := by
    simp only [calculate_elastances]
    have he := Real.exp_pos (-0.0002 * (svr - 800))
    have hb : (0 : ℝ) < 2.0 * ef / 0.55 := by positivity
    positivity
  exact ⟨hsv, ne_of_gt hsv, ne_of_gt hees⟩

/-- Witness for C4 at the concrete input `hr = 60`, `svr = 800`, `ef = 1`. -/
theorem sv_pos_divisors_nonzero_witness :
    0 < calculate_sv 60 800 1 ∧ calculate_sv 60 800 1 ≠ 0 ∧
      (calculate_elastances 60 800 1).2.1 ≠ 0 :=
  sv_pos_divisors_nonzero 60 800 1 (by norm_num) (by norm_num) (by norm_num)
    (by norm_num)

/-- The raw wedge expression factors as an `svr`-independent coefficient
times the affine function `0.7 + (3 / 8000) * svr`, which is positive and
increasing for positive `svr`. -/
lemma optimal_wedge_raw_factor (hr svr ef : ℝ) :
    optimal_wedge_raw hr svr ef =
      12 * (1 - 0.4 * (1 - ef)) *
          (1 + 0.2 * (1 - Real.exp (-0.1 * (hr - 75)))) *
        (0.7 + 3 / 8000 * svr) := by
  simp only [optimal_wedge_raw]
  ring

/-- C5: for fixed `hr > 0` and `ef ∈ (0, 1]`, the clamped optimal wedge
pressure is monotonically non-decreasing in `svr`.  When the
`svr`-independent coefficient is nonnegative the raw value is
non-decreasing in `svr` and the clamp preserves monotonicity; when it is
negative the raw value is negative for every positive `svr` and both
sides clamp to the constant 5. -/
theorem wedge_monotone_in_svr (hr ef svr1 svr2 : ℝ)
    (hhr : 0 < hr) (hef0 : 0 < ef) (hef1 : ef ≤ 1)
    (hs1 : 0 < svr1) (hs12 : svr1 ≤ svr2) :
    calculate_optimal_wedge_pressure hr svr1 ef ≤
      calculate_optimal_wedge_pressure hr svr2 ef := by
  set K := 12 * (1 - 0.4 * (1 - ef)) *
    (1 + 0.2 * (1 - Real.exp (-0.1 * (hr - 75)))) with hK
  have h1 : optimal_wedge_raw hr svr1 ef = K * (0.7 + 3 / 8000 * svr1) :=
    optimal_wedge_raw_factor hr svr1 ef
  have h2 : optimal_wedge_raw hr svr2 ef = K * (0.7 + 3 / 8000 * svr2) :=
    optimal_wedge_raw_factor hr svr2 ef
  have hB1 : (0 : ℝ) < 0.7 + 3 / 8000 * svr1 := by nlinarith
  have hB2 : (0 : ℝ) < 0.7 + 3 / 8000 * svr2 := by nlinarith
  have hB12 : (0.7 : ℝ) + 3 / 8000 * svr1 ≤ 0.7 + 3 / 8000 * svr2 := by nlinarith
  unfold calculate_optimal_wedge_pressure
  rcases le_or_lt 0 K with hk | hk
  · have hraw : optimal_wedge_raw hr svr1 ef ≤ optimal_wedge_raw hr svr2 ef := by
      rw [h1, h2]
      exact mul_le_mul_of_nonneg_left hB12 hk
    exact max_le_max le_rfl (min_le_min le_rfl hraw)
  · have hneg1 : optimal_wedge_raw hr svr1 ef < 0 := by
      rw [h1]
      exact mul_neg_of_neg_of_pos hk hB1
    have hneg2 : optimal_wedge_raw hr svr2 ef < 0 := by
      rw [h2]
      exact mul_neg_of_neg_of_pos hk hB2
    rw [min_eq_right (by linarith : optimal_wedge_raw hr svr1 ef ≤ 25),
      min_eq_right (by linarith : optimal_wedge_raw hr svr2 ef ≤ 25),
      max_eq_left (by linarith : optimal_wedge_raw hr svr1 ef ≤ 5),
      max_eq_left (by linarith : optimal_wedge_raw hr svr2 ef ≤ 5)]

/-- Witness for C5 at `hr = 75`, `ef = 1/2`, `svr1 = 800`, `svr2 = 900`. -/
theorem wedge_monotone_in_svr_witness :
    calculate_optimal_wedge_pressure 75 800 (1 / 2) ≤
      calculate_optimal_wedge_pressure 75 900 (1 / 2) :=
  wedge_monotone_in_svr 75 (1 / 2) 800 900 (by norm_num) (by norm_num)
    (by norm_num) (by norm_num) (by norm_num)

/-- C6: the returned wedge pressure always lies in `[5, 25]`, raw values
outside the interval are saturated to the nearest bound, and the function
is total (no input errors). -/
theorem wedge_in_range (hr svr ef : ℝ)
    (h1 : 0 < hr) (h2 : 0 < svr) (h3 : 0 < ef) (h4 : ef ≤ 1) :
    5 ≤ calculate_optimal_wedge_pressure hr svr ef ∧
      calculate_optimal_wedge_pressure hr svr ef ≤ 25 ∧
      (optimal_wedge_raw hr svr ef ≤ 5 →
        calculate_optimal_wedge_pressure hr svr ef = 5) ∧
      (25 ≤ optimal_wedge_raw hr svr ef →
        calculate_optimal_wedge_pressure hr svr ef = 25) := by
  unfold calculate_optimal_wedge_pressure
  refine ⟨le_max_left _ _, max_le (by norm_num) (min_le_left _ _), ?_, ?_⟩
  · intro h
    rw [min_eq_right (by linarith : optimal_wedge_raw hr svr ef ≤ 25),
      max_eq_left h]
  · intro h
    rw [min_eq_left h, max_eq_right (by norm_num : (5 : ℝ) ≤ 25)]

/-- Witness for C6 at the concrete input `hr = 75`, `svr = 800`,
`ef = 1/2`. -/
theorem wedge_in_range_witness :
    5 ≤ calculate_optimal_wedge_pressure 75 800 (1 / 2) ∧
      calculate_optimal_wedge_pressure 75 800 (1 / 2) ≤ 25 ∧
      (optimal_wedge_raw 75 800 (1 / 2) ≤ 5 →
        calculate_optimal_wedge_pressure 75 800 (1 / 2) = 5) ∧
      (25 ≤ optimal_wedge_raw 75 800 (1 / 2) →
        calculate_optimal_wedge_pressure 75 800 (1 / 2) = 25) :=
  wedge_in_range 75 800 (1 / 2) (by norm_num) (by norm_num) (by norm_num)
    (by norm_num)

/-- C10: whenever the stroke volume is nonzero it cancels out of the
composition `co = sv * hr / 1000`, `map = co * svr / 80`,
`ea = map * 0.9 / sv`, so `Ea = 0.9 * hr * svr / 80000`, independent of
`ef` and of the stroke-volume formula. -/
theorem ea_closed_form (hr svr ef : ℝ) (h : calculate_sv hr svr ef ≠ 0) :
    (calculate_elastances hr svr ef).1 = 0.9 * hr * svr / 80000 := by
  simp only [calculate_elastances]
  field_simp
  ring

/-- Witness for C10 at the concrete input `hr = 60`, `svr = 800`,
`ef = 1`, where the stroke volume is `150 ≠ 0`. -/
theorem ea_closed_form_witness :
    calculate_sv 60 800 1 ≠ 0 ∧
      (calculate_elastances 60 800 1).1 = 0.9 * 60 * 800 / 80000 := by
  have h : calculate_sv 60 800 1 ≠ 0 := by simp [calculate_sv]
  exact ⟨h, ea_closed_form 60 800 1 h⟩

/-- A `getD` at an in-range index is the indexed element. -/
lemma getD_eq_get {α : Type _} (l : List α) (j : ℕ) (d : α) (h : j < l.length) :
    l.getD j d = l[j] := by
  rw [List.getD_eq_getElem?_getD, List.getElem?_eq_getElem h]
  rfl

/-- The sweep table has exactly 81 rows. -/
lemma generate_data_length (svr ef : ℝ) : (generate_data svr ef).length = 81 := by
  simp [generate_data, linspace]

/-- The heart-rate column of the sweep table is exactly `40, 41, ..., 120`. -/
lemma generate_data_hr_map (svr ef : ℝ) :
    (generate_data svr ef).map DataRow.hr =
      (List.range 81).map fun i : ℕ => (40 : ℝ) + (i : ℝ) := by
  simp only [generate_data, linspace, List.map_map]
  refine List.map_congr_left fun i hi => ?_
  simp only [Function.comp_apply]
  have h80 : ((81 : ℕ) : ℝ) - 1 = 80 := by norm_num
  field_simp
  ring

/-- Row `j` of the sweep table has heart rate `40 + j`. -/
lemma generate_data_getD_hr (svr ef : ℝ) (d : DataRow) (j : ℕ) (hj : j < 81) :
    ((generate_data svr ef).getD j d).hr = 40 + (j : ℝ) := by
  have hjl : j < (generate_data svr ef).length := by
    rw [generate_data_length]; exact hj
  rw [getD_eq_get _ _ _ hjl]
  have hmap := generate_data_hr_map svr ef
  have hjm : j < ((generate_data svr ef).map DataRow.hr).length := by
    rw [List.length_map]; exact hjl
  have h1 : ((generate_data svr ef).map DataRow.hr)[j] =
      (generate_data svr ef)[j].hr := List.getElem_map _
  have h2 : ((generate_data svr ef).map DataRow.hr)[j] = 40 + (j : ℝ) := by
    have hjr : j < ((List.range 81).map fun i : ℕ => (40 : ℝ) + (i : ℝ)).length := by
      simp [hj]
    rw [List.getElem_of_eq hmap hjm]
    simp
  rw [← h1, h2]

/-- C8: for every `svr` and `ef`, the sweep table has exactly 81 rows, its
heart-rate column equals the grid `40, 41, ..., 120` (evenly spaced, step
1, strictly ascending, one row per sample in grid order), and the first
and last rows carry exactly 40 and 120. -/
theorem sweep_grid (svr ef : ℝ) (d : DataRow) :
    (generate_data svr ef).length = 81 ∧
      (generate_data svr ef).map DataRow.hr =
        (List.range 81).map (fun i : ℕ => (40 : ℝ) + (i : ℝ)) ∧
      ((generate_data svr ef).getD 0 d).hr = 40 ∧
      ((generate_data svr ef).getD 80 d).hr = 120 := by
  refine ⟨generate_data_length svr ef, generate_data_hr_map svr ef, ?_, ?_⟩
  · have := generate_data_getD_hr svr ef d 0 (by norm_num)
    simpa using this
  · have := generate_data_getD_hr svr ef d 80 (by norm_num)
    rw [this]
    norm_num

/-- Every nonempty list of reals has a greatest element. -/
lemma exists_max_mem (l : List ℝ) : l ≠ [] → ∃ x ∈ l, ∀ y ∈ l, y ≤ x := by
  induction l with
  | nil => intro h; exact absurd rfl h
  | cons a t ih =>
    intro _
    rcases eq_or_ne t [] with rfl | ht
    · exact ⟨a, by simp, by simp⟩
    · obtain ⟨x, hx, hmax⟩ := ih ht
      rcases le_total a x with hax | hxa
      · refine ⟨x, List.mem_cons_of_mem a hx, ?_⟩
        intro y hy
        rcases List.mem_cons.mp hy with rfl | hy2
        · exact hax
        · exact hmax y hy2
      · refine ⟨a, List.mem_cons_self a t, ?_⟩
        intro y hy
        rcases List.mem_cons.mp hy with rfl | hy2
        · exact le_rfl
        · exact le_trans (hmax y hy2) hxa

/-- C9: the optimal point selected on line 192 of the source
(`data.loc[data['efficiency'].idxmax()]`) is a row of maximal efficiency;
every row strictly before it has strictly smaller efficiency (first
occurrence wins), and therefore every row tying the maximum has a heart
rate at least as large as the selected row's. -/
theorem optimal_row_is_argmax (svr ef : ℝ) (d : DataRow) :
    idxmax ((generate_data svr ef).map DataRow.efficiency) <
        (generate_data svr ef).length ∧
      (∀ j, j < (generate_data svr ef).length →
        ((generate_data svr ef).getD j d).efficiency ≤
          (optimal_row svr ef d).efficiency) ∧
      (∀ j, j < idxmax ((generate_data svr ef).map DataRow.efficiency) →
        ((generate_data svr ef).getD j d).efficiency <
          (optimal_row svr ef d).efficiency) ∧
      (∀ j, j < (generate_data svr ef).length →
        ((generate_data svr ef).getD j d).efficiency =
          (optimal_row svr ef d).efficiency →
        (optimal_row svr ef d).hr ≤ ((generate_data svr ef).getD j d).hr) := by
  have hel : ((generate_data svr ef).map DataRow.efficiency).length =
      (generate_data svr ef).length := List.length_map _ _
  have hlen : (generate_data svr ef).length = 81 := generate_data_length svr ef
  have hne : (generate_data svr ef).map DataRow.efficiency ≠ [] := by
    refine List.length_pos.mp ?_
    rw [hel, hlen]
    norm_num
  obtain ⟨x, hx, hmax⟩ := exists_max_mem _ hne
  have hex : ∃ z ∈ (generate_data svr ef).map DataRow.efficiency,
      (fun v => decide (∀ y ∈ (generate_data svr ef).map DataRow.efficiency,
        y ≤ v)) z = true :=
    ⟨x, hx, by simpa using hmax⟩
  have hilt : idxmax ((generate_data svr ef).map DataRow.efficiency) <
      ((generate_data svr ef).map DataRow.efficiency).length := by
    unfold idxmax
    exact List.findIdx_lt_length_of_exists hex
  have hiltr : idxmax ((generate_data svr ef).map DataRow.efficiency) <
      (generate_data svr ef).length := by
    rw [← hel]
    exact hilt
  have hp : ∀ y ∈ (generate_data svr ef).map DataRow.efficiency,
      y ≤ ((generate_data svr ef).map DataRow.efficiency)[
        idxmax ((generate_data svr ef).map DataRow.efficiency)] := by
    have h := @List.findIdx_getElem ℝ
      (fun v => decide (∀ y ∈ (generate_data svr ef).map DataRow.efficiency, y ≤ v))
      ((generate_data svr ef).map DataRow.efficiency) hilt
    simpa [idxmax] using h
  have hopt : optimal_row svr ef d =
      (generate_data svr ef)[idxmax ((generate_data svr ef).map DataRow.efficiency)] := by
    unfold optimal_row
    exact getD_eq_get _ _ _ hiltr
  have hie : ((generate_data svr ef).map DataRow.efficiency)[
        idxmax ((generate_data svr ef).map DataRow.efficiency)] =
      (optimal_row svr ef d).efficiency := by
    rw [hopt]
    exact List.getElem_map _
  have hb : ∀ j, j < (generate_data svr ef).length →
      ((generate_data svr ef).getD j d).efficiency ≤
        (optimal_row svr ef d).efficiency := by
    intro j hj
    have hje : j < ((generate_data svr ef).map DataRow.efficiency).length := by
      rw [hel]
      exact hj
    have hjv : ((generate_data svr ef).map DataRow.efficiency)[j] =
        ((generate_data svr ef).getD j d).efficiency := by
      rw [getD_eq_get _ _ _ hj]
      exact List.getElem_map _
    rw [← hjv, ← hie]
    exact hp _ (List.getElem_mem hje)
  have hc : ∀ j, j < idxmax ((generate_data svr ef).map DataRow.efficiency) →
      ((generate_data svr ef).getD j d).efficiency <
        (optimal_row svr ef d).efficiency := by
    intro j hj
    have hje : j < ((generate_data svr ef).map DataRow.efficiency).length :=
      lt_trans hj hilt
    have hjr : j < (generate_data svr ef).length := by
      rw [← hel]
      exact hje
    have hj2 : j < ((generate_data svr ef).map DataRow.efficiency).findIdx
        fun v => decide (∀ y ∈ (generate_data svr ef).map DataRow.efficiency,
          y ≤ v) := by
      rw [← idxmax]
      exact hj
    have hnp := List.not_of_lt_findIdx hj2
    have hnp2 : ¬ ∀ y ∈ (generate_data svr ef).map DataRow.efficiency,
        y ≤ ((generate_data svr ef).map DataRow.efficiency)[j] := by
      simpa using hnp
    push_neg at hnp2
    obtain ⟨y, hy, hlty⟩ := hnp2
    have hylei := hp y hy
    have hjv : ((generate_data svr ef).map DataRow.efficiency)[j] =
        ((generate_data svr ef).getD j d).efficiency := by
      rw [getD_eq_get _ _ _ hjr]
      exact List.getElem_map _
    rw [← hjv, ← hie]
    exact lt_of_lt_of_le hlty hylei
  refine ⟨hiltr, hb, hc, ?_⟩
  intro j hj heq
  rcases Nat.lt_or_ge j (idxmax ((generate_data svr ef).map DataRow.efficiency))
    with hlt | hge
  · exact absurd heq (ne_of_lt (hc j hlt))
  · have hi81 : idxmax ((generate_data svr ef).map DataRow.efficiency) < 81 := by
      rw [← hlen]
      exact hiltr
    have hj81 : j < 81 := by
      rw [← hlen]
      exact hj
    have h1 := generate_data_getD_hr svr ef d
      (idxmax ((generate_data svr ef).map DataRow.efficiency)) hi81
    have h2 := generate_data_getD_hr svr ef d j hj81
    have hoptD : optimal_row svr ef d = (generate_data svr ef).getD
        (idxmax ((generate_data svr ef).map DataRow.efficiency)) d := rfl
    rw [hoptD, h1, h2]
    have : ((idxmax ((generate_data svr ef).map DataRow.efficiency) : ℕ) : ℝ) ≤
        (j : ℝ) := Nat.cast_le.mpr hge
    linarith

/-- Witness for C9 at `svr = 800`, `ef = 1/2`: the selected index is in
range and the first row's efficiency is at most the selected row's. -/
theorem optimal_row_is_argmax_witness :
    idxmax ((generate_data 800 (1 / 2)).map DataRow.efficiency) <
        (generate_data 800 (1 / 2)).length ∧
      ((generate_data 800 (1 / 2)).getD 0
          { hr := 0, efficiency := 0, coupling_ratio := 0, sv := 0, co := 0,
            optimal_wedge := 0 }).efficiency ≤
        (optimal_row 800 (1 / 2)
          { hr := 0, efficiency := 0, coupling_ratio := 0, sv := 0, co := 0,
            optimal_wedge := 0 }).efficiency := by
  have h := optimal_row_is_argmax 800 (1 / 2)
    { hr := 0, efficiency := 0, coupling_ratio := 0, sv := 0, co := 0,
      optimal_wedge := 0 }
  refine ⟨h.1, h.2.1 0 ?_⟩
  rw [generate_data_length]
  norm_num

end VACoupling
